import Mathlib

/-!
Verification of the multi-tenant Telegram publication scheduler
(`schu.py`, `utils.py`, `config.py`, `database.py`).

The development shallowly embeds the pure content of the scheduler:

* `cleanTelegramLinks` — `utils.clean_telegram_links`, including the exact
  semantics of its two `re.sub` calls (leftmost scanning, greedy runs,
  the lookbehind/lookahead of the handle pattern);
* `sha256Hex` — the standard SHA-256 (FIPS 180-4), which the source calls
  through Python's `hashlib`; `makePostFingerprint` —
  `PostScheduler._make_post_fingerprint`;
* `reserveDedup` / `releaseDedup` — the `published_dedup` table operations
  (`INSERT OR IGNORE` on a unique `(channel_id, fingerprint)` key and the
  rollback `DELETE`), with a flag for the fail-open exception path;
* `randomRowStep` — the per-row body of `PostScheduler.check_random_posts`
  (slot compare-and-set, retry loop, daily and spacing caps, publish,
  rollback), with SQLite assumed healthy and the publish outcome an input;
* `repostPoll` — `PostScheduler.check_donor_channel` (baseline step, tail
  collection, per-target dedup and publication, `last_message_id` update),
  with the Publisher modelled as succeeding;
* `oneShotStep` — the per-row body of `PostScheduler.check_scheduled_posts`;
* `backfillTarget` — the per-(stream, target) body of
  `PostScheduler._generate_next_day_random_posts_for_db`, with the random
  draws (minute samples, second jitters, push jitters) as explicit inputs.

Datetimes are modelled as microseconds since the start of "today" 's epoch
day (a `Nat`); ISO-8601 string comparison in SQL agrees with numeric order
on such values.
-/

namespace TgBot

/-! ## Python string helpers -/

/-- Python's ASCII whitespace (the characters `str.strip` and the regex
class `\s` treat as space in the ASCII range). All theorem inputs below
are ASCII, where this coincides with Python's Unicode notion. -/
def pyIsSpace (c : Char) : Bool :=
  c = ' ' || c = '\t' || c = '\n' || c = '\r' || c = '\x0b' || c = '\x0c'

/-- Python `str.strip()` (with ASCII whitespace, see `pyIsSpace`). -/
def pyStrip (s : String) : String :=
  String.mk (((s.data.dropWhile pyIsSpace).reverse.dropWhile pyIsSpace).reverse)

/-- Python slicing `s[:n]` (by code point, as in Python). -/
def pyTake (n : Nat) (s : String) : String :=
  String.mk (s.data.take n)

/-! ## `utils.clean_telegram_links`

The source applies two `re.sub(..., '', text)` calls in order:

1. `(https?://)?t(?:elegram)?\.me/[A-Za-z0-9_+/]+` — remove Telegram links
   anywhere;
2. `(?<!\S)@[A-Za-z0-9_]{3,}(?!\S)` — remove `@handle` tokens that stand
   alone (preceded by start/whitespace in the original string, followed by
   end/whitespace).

Both are modelled as leftmost scanners over the character list; on a match
the scanner resumes at the match end, otherwise it copies one character.
-/

/-- The character class `[A-Za-z0-9_+/]` of the link pattern. -/
def isTmeChar (c : Char) : Bool :=
  (('A' ≤ c && c ≤ 'Z') || ('a' ≤ c && c ≤ 'z') || ('0' ≤ c && c ≤ '9')
    || c = '_' || c = '+' || c = '/')

/-- The word class `[A-Za-z0-9_]` of the handle pattern. -/
def isWordChar (c : Char) : Bool :=
  (('A' ≤ c && c ≤ 'Z') || ('a' ≤ c && c ≤ 'z') || ('0' ≤ c && c ≤ '9')
    || c = '_')

/-- Match a literal pattern at the head, returning the remainder. -/
def litMatch : List Char → List Char → Option (List Char)
  | [], s => some s
  | _, [] => none
  | p :: ps, c :: cs => if c = p then litMatch ps cs else none

/-- Length of the maximal run of characters satisfying `p`, and the rest. -/
def takeClass (p : Char → Bool) : List Char → Nat × List Char
  | [] => (0, [])
  | c :: cs =>
    if p c then
      let r := takeClass p cs
      (r.1 + 1, r.2)
    else (0, c :: cs)

/-- Match `t(?:elegram)?\.me/[A-Za-z0-9_+/]+` at the head: `telegram.me/`
is tried before `t.me/` (the greedy optional group), then a nonempty run
of the class; returns the remainder after the match. -/
def matchTmeTail (s : List Char) : Option (List Char) :=
  let run (rest : List Char) : Option (List Char) :=
    let r := takeClass isTmeChar rest
    if r.1 = 0 then none else some r.2
  match litMatch "telegram.me/".data s with
  | some r =>
    match run r with
    | some r2 => some r2
    | none =>
      match litMatch "t.me/".data s with
      | some r' => run r'
      | none => none
  | none =>
    match litMatch "t.me/".data s with
    | some r' => run r'
    | none => none

/-- Match `(https?://)?t(?:elegram)?\.me/[A-Za-z0-9_+/]+` at the head.
The scheme alternatives are mutually exclusive with each other and with
the bare form, so trying them in greedy order is the regex semantics. -/
def matchTme (s : List Char) : Option (List Char) :=
  match (litMatch "https://".data s).bind matchTmeTail with
  | some r => some r
  | none =>
    match (litMatch "http://".data s).bind matchTmeTail with
    | some r => some r
    | none => matchTmeTail s

/-- `re.sub` scanner for the link pattern (fuel-indexed; `fuel = length + 1`
suffices because every step consumes at least one character). -/
def stripTmeAux : Nat → List Char → List Char
  | 0, s => s
  | _, [] => []
  | fuel + 1, c :: cs =>
    match matchTme (c :: cs) with
    | some rest => stripTmeAux fuel rest
    | none => c :: stripTmeAux fuel cs

/-- `re.sub` scanner for `(?<!\S)@[A-Za-z0-9_]{3,}(?!\S)`. The `gap`
argument records whether the previous character of the original string is
start-of-string or whitespace (the lookbehind). After a removed handle the
previous original character is the final word character, so `gap` becomes
false. -/
def stripHandlesAux : Nat → Bool → List Char → List Char
  | 0, _, s => s
  | _, _, [] => []
  | fuel + 1, gap, '@' :: cs =>
    if gap then
      let r := takeClass isWordChar cs
      let ahead : Bool :=
        match r.2 with
        | [] => true
        | c :: _ => pyIsSpace c
      if 3 ≤ r.1 && ahead then stripHandlesAux fuel false r.2
      else '@' :: stripHandlesAux fuel false cs
    else '@' :: stripHandlesAux fuel false cs
  | fuel + 1, _, c :: cs => c :: stripHandlesAux fuel (pyIsSpace c) cs

/-- `utils.clean_telegram_links`: strip Telegram links, then standalone
`@handle` tokens, preserving all other characters. -/
def cleanTelegramLinks (s : String) : String :=
  if s = "" then s
  else
    let l1 := stripTmeAux (s.data.length + 1) s.data
    String.mk (stripHandlesAux (l1.length + 1) true l1)

/-! ## SHA-256 (FIPS 180-4)

The source hashes with `hashlib.sha256(...).hexdigest()`. Words are `Nat`s
reduced mod `2^32` explicitly. -/

/-- Right rotation of a 32-bit word. -/
def rotr (n x : Nat) : Nat := x / 2 ^ n + x % 2 ^ n * 2 ^ (32 - n)

def bigSigma0 (x : Nat) : Nat := rotr 2 x ^^^ rotr 13 x ^^^ rotr 22 x
def bigSigma1 (x : Nat) : Nat := rotr 6 x ^^^ rotr 11 x ^^^ rotr 25 x
def smallSigma0 (x : Nat) : Nat := rotr 7 x ^^^ rotr 18 x ^^^ x / 2 ^ 3
def smallSigma1 (x : Nat) : Nat := rotr 17 x ^^^ rotr 19 x ^^^ x / 2 ^ 10

/-- The 64 round constants. -/
def shaK : List Nat :=
  [1116352408, 1899447441, 3049323471, 3921009573, 961987163,
   1508970993, 2453635748, 2870763221, 3624381080, 310598401,
   607225278, 1426881987, 1925078388, 2162078206, 2614888103,
   3248222580, 3835390401, 4022224774, 264347078, 604807628,
   770255983, 1249150122, 1555081692, 1996064986, 2554220882,
   2821834349, 2952996808, 3210313671, 3336571891, 3584528711,
   113926993, 338241895, 666307205, 773529912, 1294757372,
   1396182291, 1695183700, 1986661051, 2177026350, 2456956037,
   2730485921, 2820302411, 3259730800, 3345764771, 3516065817,
   3600352804, 4094571909, 275423344, 430227734, 506948616,
   659060556, 883997877, 958139571, 1322822218, 1537002063,
   1747873779, 1955562222, 2024104815, 2227730452, 2361852424,
   2428436474, 2756734187, 3204031479, 3329325298]

/-- The initial hash value. -/
def shaH0 : List Nat :=
  [1779033703, 3144134277, 1013904242, 2773480762, 1359893119,
   2600822924, 528734635, 1541459225]

/-- Working variables of the compression function. -/
structure SHAState where
  a : Nat
  b : Nat
  c : Nat
  d : Nat
  e : Nat
  f : Nat
  g : Nat
  h : Nat

/-- One compression round. -/
def shaRound (st : SHAState) (w k : Nat) : SHAState :=
  let ch := st.e &&& st.f ^^^ (st.e ^^^ 0xffffffff) &&& st.g
  let maj := st.a &&& st.b ^^^ st.a &&& st.c ^^^ st.b &&& st.c
  let t1 := (st.h + bigSigma1 st.e + ch + k + w) % 2 ^ 32
  let t2 := (bigSigma0 st.a + maj) % 2 ^ 32
  { a := (t1 + t2) % 2 ^ 32, b := st.a, c := st.b, d := st.c,
    e := (st.d + t1) % 2 ^ 32, f := st.e, g := st.f, h := st.g }

/-- Big-endian bytes to 32-bit words (4 bytes per word). -/
def bytesToWords : List Nat → List Nat
  | b0 :: b1 :: b2 :: b3 :: rest =>
    (((b0 * 256 + b1) * 256 + b2) * 256 + b3) :: bytesToWords rest
  | _ => []

/-- Message-schedule extension step: the accumulator holds the schedule in
reverse, so `W[t-2]`, `W[t-7]`, `W[t-15]`, `W[t-16]` are at positions
1, 6, 14, 15. -/
def extendW : Nat → List Nat → List Nat
  | 0, acc => acc
  | n + 1, acc =>
    extendW n
      (((smallSigma1 (acc.getD 1 0) + acc.getD 6 0 + smallSigma0 (acc.getD 14 0)
          + acc.getD 15 0) % 2 ^ 32) :: acc)

/-- The 64-word message schedule of a 64-byte block. -/
def msgSchedule (block : List Nat) : List Nat :=
  (extendW 48 (bytesToWords block).reverse).reverse

/-- Compress one 64-byte block into the running hash. -/
def shaCompress (hs : List Nat) (block : List Nat) : List Nat :=
  let st0 : SHAState :=
    ⟨hs.getD 0 0, hs.getD 1 0, hs.getD 2 0, hs.getD 3 0,
     hs.getD 4 0, hs.getD 5 0, hs.getD 6 0, hs.getD 7 0⟩
  let st := ((msgSchedule block).zip shaK).foldl (fun st p => shaRound st p.1 p.2) st0
  [(hs.getD 0 0 + st.a) % 2 ^ 32, (hs.getD 1 0 + st.b) % 2 ^ 32,
   (hs.getD 2 0 + st.c) % 2 ^ 32, (hs.getD 3 0 + st.d) % 2 ^ 32,
   (hs.getD 4 0 + st.e) % 2 ^ 32, (hs.getD 5 0 + st.f) % 2 ^ 32,
   (hs.getD 6 0 + st.g) % 2 ^ 32, (hs.getD 7 0 + st.h) % 2 ^ 32]

/-- `k` big-endian bytes of `n`. -/
def natToBytesBE : Nat → Nat → List Nat
  | 0, _ => []
  | k + 1, n => natToBytesBE k (n / 256) ++ [n % 256]

/-- SHA-256 padding: `0x80`, zeros to 56 mod 64, then the 8-byte bit length. -/
def shaPad (msg : List Nat) : List Nat :=
  let z := (119 - msg.length % 64) % 64
  msg ++ 0x80 :: List.replicate z 0 ++ natToBytesBE 8 (8 * msg.length)

/-- Split into 64-byte blocks (fuel-indexed). -/
def toBlocksAux : Nat → List Nat → List (List Nat)
  | 0, _ => []
  | _, [] => []
  | fuel + 1, l => l.take 64 :: toBlocksAux fuel (l.drop 64)

/-- The eight 32-bit words of the SHA-256 digest of a byte list. -/
def sha256Words (msg : List Nat) : List Nat :=
  let padded := shaPad msg
  (toBlocksAux (padded.length + 1) padded).foldl shaCompress shaH0

/-- A nibble as a lowercase hex character. -/
def hexChar (n : Nat) : Char :=
  if n < 10 then Char.ofNat (48 + n) else Char.ofNat (87 + n)

/-- A 32-bit word as 8 hex characters. -/
def wordHex (w : Nat) : List Char :=
  (List.range 8).map fun i => hexChar (w / 16 ^ (7 - i) % 16)

/-- `hashlib.sha256(bytes).hexdigest()`. -/
def sha256Hex (msg : List Nat) : String :=
  String.mk ((sha256Words msg).foldr (fun w acc => wordHex w ++ acc) [])

/-- UTF-8 bytes of one character. -/
def utf8Char (c : Char) : List Nat :=
  let n := c.toNat
  if n < 0x80 then [n]
  else if n < 0x800 then [0xc0 + n / 64, 0x80 + n % 64]
  else if n < 0x10000 then [0xe0 + n / 4096, 0x80 + n / 64 % 64, 0x80 + n % 64]
  else [0xf0 + n / 262144, 0x80 + n / 4096 % 64, 0x80 + n / 64 % 64, 0x80 + n % 64]

/-- Python `s.encode('utf-8', errors='ignore')` (Lean `Char` excludes lone
surrogates, so `ignore` never drops anything). -/
def utf8Bytes (s : String) : List Nat :=
  s.data.foldr (fun c acc => utf8Char c ++ acc) []

/-! ## Candidate posts and the fingerprint

`PostScheduler._make_post_fingerprint` receives the `post_data` dict built
by the fetcher or the repost poller: a kind string under `'type'`, optional
`'text'` and `'caption'` strings, and optional in-memory media bytes. -/

/-- A candidate post (`post_data` in the source). `media` models the
`bytes`/`BytesIO` in-memory cases; the on-disk path case reads the same
bytes from a file. -/
structure PostData where
  type : String
  text : Option String
  caption : Option String
  media : Option (List Nat)
deriving DecidableEq

/-- The `media_hash` component: SHA-256 of the media bytes truncated to 32
hex characters when media is present, `""` otherwise. -/
def mediaHashOf : Option (List Nat) → String
  | none => ""
  | some b => pyTake 32 (sha256Hex b)

/-- `PostScheduler._make_post_fingerprint`: caption and text default to
`""`, are stripped, truncated to 300 characters, joined with the kind and
media hash by `|`, and the SHA-256 hex digest is truncated to 32. -/
def makePostFingerprint (pd : PostData) : String :=
  let caption := pyStrip (pd.caption.getD "")
  let text := pyStrip (pd.text.getD "")
  let base := pd.type ++ "|" ++ pyTake 300 caption ++ "|" ++ pyTake 300 text
    ++ "|" ++ mediaHashOf pd.media
  pyTake 32 (sha256Hex (utf8Bytes base))

/-- Modelled from the spec's words (§4.4): SHA-256 over
`"{kind}|{caption[:300]}|{text[:300]}|{media_hash}"` truncated to 32 hex
characters, with no whitespace stripping. Stated only to compare against
`makePostFingerprint`. -/
def fingerprintSpec (pd : PostData) : String :=
  let caption := pd.caption.getD ""
  let text := pd.text.getD ""
  let base := pd.type ++ "|" ++ pyTake 300 caption ++ "|" ++ pyTake 300 text
    ++ "|" ++ mediaHashOf pd.media
  pyTake 32 (sha256Hex (utf8Bytes base))

/-! ## The dedup table

`published_dedup(channel_id, fingerprint, published_at)` with a UNIQUE
index on `(channel_id, fingerprint)`. `published_at` is an ISO datetime
string; string order agrees with numeric order, so it is a `Nat` here. -/

/-- One row of `published_dedup`. -/
structure DedupEntry where
  channelId : Int
  fingerprint : String
  publishedAt : Nat
deriving DecidableEq

/-- Is there a row with this `(channel_id, fingerprint)` key? -/
def dedupHasKey (l : List DedupEntry) (ch : Int) (fp : String) : Bool :=
  l.any fun e => e.channelId == ch && e.fingerprint == fp

/-- `PostScheduler._reserve_dedup`: `INSERT OR IGNORE` then `changes() > 0`.
`storageFails = true` models any storage exception inside the body (for
example a missing `published_dedup` table): the `except` clause returns
`True` without touching the table. -/
def reserveDedup (storageFails : Bool) (l : List DedupEntry) (ch : Int)
    (fp : String) (now : Nat) : Bool × List DedupEntry :=
  if storageFails then (true, l)
  else if dedupHasKey l ch fp then (false, l)
  else (true, l ++ [⟨ch, fp, now⟩])

/-- The rollback `DELETE FROM published_dedup WHERE channel_id = ? AND
fingerprint = ?`. -/
def releaseDedup (l : List DedupEntry) (ch : Int) (fp : String) : List DedupEntry :=
  l.filter fun e => !(e.channelId == ch && e.fingerprint == fp)

/-- `SELECT COUNT(*) FROM published_dedup WHERE channel_id = ? AND
published_at >= ? AND published_at <= ?` (the daily-cap query). -/
def countPublishedToday (l : List DedupEntry) (ch : Int) (ts te : Nat) : Nat :=
  (l.filter fun e => e.channelId == ch && decide (ts ≤ e.publishedAt)
    && decide (e.publishedAt ≤ te)).length

/-- `SELECT MAX(published_at) FROM published_dedup WHERE channel_id = ?`
(the spacing-cap query); `none` when the channel has no rows. -/
def maxPublishedAt (l : List DedupEntry) (ch : Int) : Option Nat :=
  match (l.filter fun e => e.channelId == ch).map (·.publishedAt) with
  | [] => none
  | x :: xs => some (xs.foldl max x)

/-! ## The random pass (`PostScheduler.check_random_posts`, per due row)

The per-row body: defensive due-time guard, slot compare-and-set
(`UPDATE posts SET is_published = -1 WHERE id = ? AND is_published = 0`
then `changes()`), donors check, a retry loop of at most 5 fetch+dedup
attempts, the daily and spacing caps, the publish, and the rollback paths.
SQLite operations are assumed to succeed; fetch outcomes and the publish
outcome are inputs. -/

/-- The slot reservation compare-and-set: from `published = 0` one row
changes and the slot becomes `-1`; otherwise zero rows change. Returns
(success, new published value). -/
def reserveSlot (p : Int) : Bool × Int :=
  if p = 0 then (true, -1) else (false, p)

/-- `changes()` reported by the reservation `UPDATE`. -/
def reserveSlotChanges (p : Int) : Nat :=
  if p = 0 then 1 else 0

/-- Inputs of one due-row iteration. `attempts` lists the outcome of
`get_random_post_from_donor` for each retry (`none` = no candidate);
`dueGuard` is the defensive parse/future check; `pubOk` is whether
`publish_post_to_channel` returns rather than raises. -/
structure RandomRowEnv where
  dueGuard : Bool
  donors : List String
  attempts : List (Option PostData)
  channelId : Int
  maxPerDay : Nat
  minSec : Nat
  now : Nat
  todayStart : Nat
  dayEnd : Nat
  pubOk : Bool

/-- The slot row plus the tenant's dedup table. -/
structure SlotState where
  published : Int
  dedup : List DedupEntry
deriving DecidableEq

/-- The daily-cap test: `MAX_POSTS_PER_CHANNEL_PER_DAY > 0` and today's
`published_dedup` count (which includes this attempt's own reservation)
already meets it. -/
def dailyCapHit (maxPerDay : Nat) (d : List DedupEntry) (ch : Int)
    (ts te : Nat) : Bool :=
  decide (0 < maxPerDay) && decide (maxPerDay ≤ countPublishedToday d ch ts te)

/-- The spacing-cap test: `MIN_SECONDS_BETWEEN_POSTS_PER_CHANNEL > 0` and
the channel's newest `published_at` (which includes this attempt's own
reservation) is within the interval. -/
def spacingBlocked (minSec : Nat) (lastPub : Option Nat) (now : Nat) : Bool :=
  decide (0 < minSec) &&
    (match lastPub with
     | some lp => decide (now - lp < minSec)
     | none => false)

/-- The retry loop (`for attempt in range(5)`): pick a candidate, compute
its fingerprint, reserve the dedup key; stop at the first successful
reservation. Failed fetches and failed reservations leave the table
unchanged and move to the next attempt. -/
def retryLoop (ch : Int) (now : Nat) :
    List (Option PostData) → List DedupEntry →
    Option (PostData × String) × List DedupEntry
  | [], d => (none, d)
  | none :: rest, d => retryLoop ch now rest d
  | some pd :: rest, d =>
    let fp := makePostFingerprint pd
    let r := reserveDedup false d ch fp now
    if r.1 then (some (pd, fp), r.2) else retryLoop ch now rest r.2

/-- The tail of a due-row iteration, after the slot CAS succeeded and the
donors check passed, on the outcome of the retry loop: absorb
(`is_published = 1`, no publication) when all retries failed; absorb on
the daily cap; release — keeping the dedup reservation — on the spacing
cap; publish and commit on success; on a publish exception release the
slot and delete the dedup reservation. -/
def randomRowAfterReserve (env : RandomRowEnv)
    (res : Option (PostData × String) × List DedupEntry) : SlotState × Nat :=
  match res with
  | (none, d) => ({ published := 1, dedup := d }, 0)
  | (some (_, fp), d) =>
    if dailyCapHit env.maxPerDay d env.channelId env.todayStart env.dayEnd then
      ({ published := 1, dedup := d }, 0)
    else if spacingBlocked env.minSec (maxPublishedAt d env.channelId) env.now then
      ({ published := 0, dedup := d }, 0)
    else if env.pubOk then
      ({ published := 1, dedup := d }, 1)
    else
      ({ published := 0, dedup := releaseDedup d env.channelId fp }, 0)

/-- One due-row iteration of `check_random_posts`. Returns the new state
and the number of successful publications (0 or 1): skip on the due
guard; skip when the reservation CAS loses; release when the donors
snapshot is empty; otherwise run the retry loop and
`randomRowAfterReserve`. -/
def randomRowStep (env : RandomRowEnv) (st : SlotState) : SlotState × Nat :=
  if env.dueGuard = false then (st, 0)
  else if (reserveSlot st.published).1 = false then (st, 0)
  else if env.donors = [] then ({ st with published := 0 }, 0)
  else randomRowAfterReserve env
    (retryLoop env.channelId env.now (env.attempts.take 5) st.dedup)

/-- Total successful publications of one slot across a sequence of row
iterations (any interleaving of tick passes serializes into such a
sequence at the reservation CAS). -/
def totalPublishes : List RandomRowEnv → SlotState → Nat
  | [], _ => 0
  | e :: es, st =>
    (randomRowStep e st).2 + totalPublishes es (randomRowStep e st).1

/-! ## The repost pass (`PostScheduler.check_donor_channel`)

Donor history arrives newest-first. The poller baselines an unset
`last_message_id`, otherwise collects messages with `id >
last_message_id` (stopping at the first older one), reverses them to
chronological order, and for each message × target reserves the dedup key
of the rebuilt payload and publishes when the reservation succeeds. The
Publisher is modelled as succeeding; publication events are recorded as
`(target, message id)` pairs. -/

/-- The content of a donor message, as the source's `elif` chain tests it
(`photo`, `video`, `document`, `audio`, `voice`, `sticker`, `text`). -/
inductive MsgContent where
  | text (s : String)
  | photo (caption : String)
  | video (caption : String)
  | document (caption : String)
  | audio (caption : String)
  | voice
  | sticker
  | serviceOnly
deriving DecidableEq

/-- A donor message. -/
structure Msg where
  id : Nat
  content : MsgContent
deriving DecidableEq

/-- `message.photo or message.video or ... or message.text` (an empty text
is falsy in Python). -/
def hasContent : MsgContent → Bool
  | .text s => s ≠ ""
  | .serviceOnly => false
  | _ => true

/-- The `post_data` dict whose fingerprint the repost pass reserves: the
kind, the link-stripped caption or text, and no media (the fingerprint is
computed before any download). -/
def repostPayload : MsgContent → PostData
  | .text s => ⟨"text", some (cleanTelegramLinks s), none, none⟩
  | .photo c => ⟨"photo", none, some (cleanTelegramLinks c), none⟩
  | .video c => ⟨"video", none, some (cleanTelegramLinks c), none⟩
  | .document c => ⟨"document", none, some (cleanTelegramLinks c), none⟩
  | .audio c => ⟨"audio", none, some (cleanTelegramLinks c), none⟩
  | .voice => ⟨"voice", none, none, none⟩
  | .sticker => ⟨"sticker", none, none, none⟩
  | .serviceOnly => ⟨"serviceOnly", none, none, none⟩

/-- The inner `for target_channel in target_channels` loop for one
message: reserve the payload's dedup key per target; a publication event
is emitted exactly when the reservation succeeds. -/
def repostMsgTargets (now : Nat) (mid : Nat) (pd : PostData) :
    List Int → List DedupEntry → List DedupEntry × List (Int × Nat)
  | [], d => (d, [])
  | t :: ts, d =>
    let fp := makePostFingerprint pd
    let r := reserveDedup false d t fp now
    let rest := repostMsgTargets now mid pd ts r.2
    if r.1 then (rest.1, (t, mid) :: rest.2) else rest

/-- The outer `for message in reversed(new_messages)` loop (messages are
already in chronological order here). -/
def repostPublish (now : Nat) (targets : List Int) :
    List Msg → List DedupEntry → List DedupEntry × List (Int × Nat)
  | [], d => (d, [])
  | m :: ms, d =>
    let r1 := repostMsgTargets now m.id (repostPayload m.content) targets d
    let r2 := repostPublish now targets ms r1.1
    (r2.1, r1.2 ++ r2.2)

/-- The new messages of one poll: walk history newest-first, stop at the
first `id ≤ last_message_id`, keep content-bearing messages. -/
def newMessages (lastId : Nat) (history : List Msg) : List Msg :=
  (history.takeWhile fun m => decide (lastId < m.id)).filter
    fun m => hasContent m.content

/-- `max(msg.id for msg in new_messages)` (over `Nat` ids). -/
def maxIds (l : List Msg) : Nat :=
  l.foldl (fun a m => max a m.id) 0

/-- One poll of `check_donor_channel`: returns the new
`last_message_id`, the publication events in order, and the dedup table.
With `last_message_id` unset (0) the stream is baselined to the donor's
tip (the head of the newest-first history) and nothing is published. -/
def repostPoll (lastId : Nat) (history : List Msg) (targets : List Int)
    (dedup : List DedupEntry) (now : Nat) :
    Nat × List (Int × Nat) × List DedupEntry :=
  if lastId = 0 then
    match history with
    | [] => (0, [], dedup)
    | m :: _ => (m.id, [], dedup)
  else
    let nm := newMessages lastId history
    let r := repostPublish now targets nm.reverse dedup
    let newLast := if nm = [] then lastId else maxIds nm
    (newLast, r.2, r.1)

/-! ## The one-shot pass (`PostScheduler.check_scheduled_posts`, per row)

For each due non-random row: build the payload by content type, publish
(or for `repost` parse `"_{source_channel_id}_{source_message_id}"` and
forward), then mark `is_published = 1` — all inside one `try`. An
exception (a failed send, or `int()` on a malformed repost part) leaves
the row untouched; a row whose payload cannot be built is still marked
published. -/

/-- Python `str.split(sep)` for a one-character separator (no collapsing:
`"a__b" → ["a", "", "b"]`). -/
def pySplit (sep : Char) (s : String) : List String :=
  (s.data.foldr
    (fun c acc =>
      match acc with
      | [] => [[c]]
      | g :: gs => if c = sep then [] :: g :: gs else (c :: g) :: gs)
    [[]]).map String.mk

/-- Python `str.isdigit()` on ASCII input: nonempty and all digits. -/
def pyIsDigit (s : String) : Bool :=
  s ≠ "" && s.data.all fun c => '0' ≤ c && c ≤ '9'

/-- Python `str.lstrip('-')`. -/
def pyLstripDashes (s : String) : String :=
  String.mk (s.data.dropWhile (· = '-'))

/-- Python `int(s)` on the strings reaching it here (dashes followed by
digits): succeeds iff at most one leading sign. -/
def pyIntParse (s : String) : Option Int :=
  match s.data with
  | '-' :: rest =>
    if rest ≠ [] && rest.all (fun c => '0' ≤ c && c ≤ '9') then
      some (-(String.mk rest).toNat!)
    else none
  | l =>
    if l ≠ [] && l.all (fun c => '0' ≤ c && c ≤ '9') then
      some ((String.mk l).toNat!)
    else none

/-- One row of `posts` as the one-shot pass reads it. -/
structure OneShotRow where
  channelId : Int
  contentType : String
  content : String
  mediaId : Option String
deriving DecidableEq

/-- The repost-content guard: `len(parts) >= 3 and
parts[1].lstrip('-').isdigit() and parts[2].isdigit()`. -/
def repostGuard (content : String) : Bool :=
  let parts := pySplit '_' content
  3 ≤ parts.length && pyIsDigit (pyLstripDashes (parts.getD 1 ""))
    && pyIsDigit (parts.getD 2 "")

/-- Does the row's attempt reach an actual send call? True for the
text/photo/video kinds and for repost rows passing the guard. -/
def oneShotPerformsSend (row : OneShotRow) : Bool :=
  row.contentType == "text" || row.contentType == "photo"
    || row.contentType == "video"
    || (row.contentType == "repost" && repostGuard row.content)

/-- One row of `check_scheduled_posts`: returns the row's new
`is_published` value and the number of successful sends (0 or 1).
`sendOk` is whether the send call returns rather than raises. Rows whose
payload cannot be built (`post_data` stays `None`: malformed repost data
or an unrecognized content type) are marked published with no send; an
exception (failed send, or `int()` on a multi-dash repost part) leaves
the row pending. -/
def oneShotStep (row : OneShotRow) (sendOk : Bool) : Int × Nat :=
  if row.contentType == "text" || row.contentType == "photo"
      || row.contentType == "video" then
    if sendOk then (1, 1) else (0, 0)
  else if row.contentType == "repost" then
    if repostGuard row.content then
      let parts := pySplit '_' row.content
      match pyIntParse (parts.getD 1 ""), pyIntParse (parts.getD 2 "") with
      | some _, some _ => if sendOk then (1, 1) else (0, 0)
      | _, _ => (0, 0)
    else (1, 0)
  else (1, 0)

/-! ## The backfill pass
(`PostScheduler._generate_next_day_random_posts_for_db`, per target)

Per (stream, target): count the distinct pending `scheduled_time`s in
today's window, generate the missing `need` slots from random minute
offsets within the remaining minutes of today (with the 23:59 push, the
`now + 2min` clamp and the day-end clamp), insert those not already
present; then the same for tomorrow's 1440-minute window with no clamps.
Times are microseconds; the random draws and the float-derived step
minutes are explicit inputs. -/

def usecPerMin : Nat := 60000000
def usecPerDay : Nat := 86400000000

/-- Configuration of one backfill target: the current time, the
stream's `posts_per_day` (per target), and the 1-based target index. -/
structure BackfillCfg where
  now : Nat
  perTargetPosts : Nat
  idxTarget : Nat

/-- `now.replace(hour=0, minute=0, second=0, microsecond=0)`. -/
def cfgTodayStart (c : BackfillCfg) : Nat := c.now / usecPerDay * usecPerDay

/-- `now.replace(hour=23, minute=59, second=59, microsecond=999999)`. -/
def cfgDayEnd (c : BackfillCfg) : Nat := cfgTodayStart c + usecPerDay - 1

def cfgTomStart (c : BackfillCfg) : Nat := cfgTodayStart c + usecPerDay

def cfgTomEnd (c : BackfillCfg) : Nat := cfgDayEnd c + usecPerDay

/-- `min_future = now + timedelta(minutes=2)`. -/
def cfgMinFuture (c : BackfillCfg) : Nat := c.now + 2 * usecPerMin

/-- `per_target_offset = timedelta(minutes=max(0, idx_target - 1))`. -/
def cfgOffset (c : BackfillCfg) : Nat := (c.idxTarget - 1) * usecPerMin

/-- `dt.hour` of a microsecond timestamp. -/
def pyHourU (t : Nat) : Nat := t / 3600000000 % 24

/-- `dt.minute` of a microsecond timestamp. -/
def pyMinuteU (t : Nat) : Nat := t / usecPerMin % 60

/-- The random draws consumed by one backfill target. `todaySample` /
`tomSample` model `sorted(random.sample(range(n), need))` (taken when
`need` fits in the minute budget); `todayStep` / `tomStep` model the
float-computed `int(i * step)` minutes of the overflow branch; the
second lists model `random.randint(0, 59)`; `todayPushJit` models the
`random.randint(0, 10)` of the 23:59 push. -/
structure BackfillDraws where
  todaySample : List Nat
  todayStep : List Nat
  todaySeconds : List Nat
  todayPushJit : List Nat
  tomSample : List Nat
  tomStep : List Nat
  tomSeconds : List Nat
deriving DecidableEq

/-- The pending times of this (stream, target) within a window (the
`SELECT scheduled_time ... WHERE scheduled_time >= ? AND <= ?` query). -/
def windowTimes (lo hi : Nat) (state : List Nat) : List Nat :=
  state.filter fun t => decide (lo ≤ t) && decide (t ≤ hi)

/-- The size of the Python set built from the rows (`len(existing)`). -/
def distinctCount (l : List Nat) : Nat := l.toFinset.card

/-- The post-processing of a generated today-time: the 23:59 push into
tomorrow's first minutes, the `min_future` clamp, the `day_end` clamp
(in this order, so a pushed time is clamped back to `day_end`). -/
def adjustTodayTime (c : BackfillCfg) (jit : Nat) (dt : Nat) : Nat :=
  let dt :=
    if pyHourU dt = 23 && pyMinuteU dt = 59 then
      cfgTomStart c + jit * usecPerMin + cfgOffset c
    else dt
  let dt := if dt < cfgMinFuture c then cfgMinFuture c else dt
  if cfgDayEnd c < dt then cfgDayEnd c else dt

/-- Zip three lists with a function (truncating to the shortest). -/
def zip3With (f : Nat → Nat → Nat → Nat) : List Nat → List Nat → List Nat → List Nat
  | a :: as, b :: bs, c :: cs => f a b c :: zip3With f as bs cs
  | _, _, _ => []

/-- `need_today = max(0, posts_per_day - len(existing_today))` (the set
of distinct pending times of this pair in today's window). -/
def todayNeed (c : BackfillCfg) (state : List Nat) : Nat :=
  c.perTargetPosts -
    distinctCount (windowTimes (cfgTodayStart c) (cfgDayEnd c) state)

/-- `need_tomorrow`, computed on the state after today's inserts. -/
def tomNeed (c : BackfillCfg) (state1 : List Nat) : Nat :=
  c.perTargetPosts -
    distinctCount (windowTimes (cfgTomStart c) (cfgTomEnd c) state1)

/-- The slots generated for today's window: `need` minute offsets (from
the sample or the step branch), each with a second jitter and the
per-target offset, post-processed and filtered against the existing
set. -/
def todayGenerated (c : BackfillCfg) (d : BackfillDraws) (state : List Nat) :
    List Nat :=
  if todayNeed c state = 0 then []
  else
    let need := todayNeed c state
    let remainingMinutes := max 1 ((cfgDayEnd c - c.now) / usecPerMin)
    let mins := if need ≤ remainingMinutes then d.todaySample.take need
      else d.todayStep.take need
    let dts := zip3With
      (fun m s j =>
        adjustTodayTime c j (c.now + m * usecPerMin + s * 1000000 + cfgOffset c))
      mins (d.todaySeconds.take need) (d.todayPushJit.take need)
    dts.filter fun t =>
      decide (t ∉ windowTimes (cfgTodayStart c) (cfgDayEnd c) state)

/-- The slots generated for tomorrow's window: minutes within 1440, no
clamps. Computed after today's inserts are visible. -/
def tomGenerated (c : BackfillCfg) (d : BackfillDraws) (state1 : List Nat) :
    List Nat :=
  if tomNeed c state1 = 0 then []
  else
    let need := tomNeed c state1
    let mins := if need ≤ 1440 then d.tomSample.take need else d.tomStep.take need
    let dts := (mins.zip (d.tomSeconds.take need)).map fun p =>
      cfgTomStart c + p.1 * usecPerMin + p.2 * 1000000 + cfgOffset c
    dts.filter fun t =>
      decide (t ∉ windowTimes (cfgTomStart c) (cfgTomEnd c) state1)

/-- One backfill pass for one (stream, target): insert the missing today
slots, then the missing tomorrow slots. The state is the multiset of this
pair's pending `scheduled_time`s. -/
def backfillTarget (c : BackfillCfg) (d : BackfillDraws) (state : List Nat) :
    List Nat :=
  let s1 := state ++ todayGenerated c d state
  s1 ++ tomGenerated c d s1

/-! ## Concrete instances used by witnesses and counterexamples -/

/-- A plain text candidate. -/
def pdPlain : PostData := ⟨"text", some "hello world", none, none⟩

/-- A candidate whose caption has leading whitespace. -/
def pdPadded : PostData := ⟨"text", some "x", some " a", none⟩

/-- A due random-row environment with the spacing cap configured
(`MIN_SECONDS_BETWEEN_POSTS_PER_CHANNEL = 60`). -/
def envSpacing : RandomRowEnv :=
  ⟨true, ["donor"], [some pdPlain], 100, 0, 60, 1000, 0, 86399, true⟩

/-- A due random-row environment with no caps and a failing publisher. -/
def envPubFail : RandomRowEnv :=
  ⟨true, ["donor"], [some pdPlain], 200, 0, 0, 1000, 0, 86399, false⟩

/-- A due random-row environment with no caps and a healthy publisher. -/
def envPubOk : RandomRowEnv :=
  ⟨true, ["donor"], [some pdPlain], 300, 0, 0, 1000, 0, 86399, true⟩

/-- The donor history of scenario S5, newest first: tip 53, texts
`"hello @d"` at 51 and 53, a captionless photo at 52. -/
def s5History : List Msg :=
  [⟨53, .text "hello @d"⟩, ⟨52, .photo ""⟩, ⟨51, .text "hello @d"⟩]

/-- A small strictly-descending history for the repost witnesses. -/
def historySmall : List Msg :=
  [⟨9, .text "b"⟩, ⟨8, .voice⟩, ⟨7, .text "a"⟩]

/-- Backfill at noon, one post per day, target index 2 (offset one
minute): the tomorrow draw 1439 plus the offset lands past tomorrow's
window. -/
def cfgNoonIdx2 : BackfillCfg := ⟨43200000000, 1, 2⟩

def drawsOut : BackfillDraws := ⟨[5], [], [0], [0], [1439], [], [0]⟩

def drawsIn : BackfillDraws := ⟨[5], [], [0], [0], [0], [], [0]⟩

/-- Backfill at noon, one post per day, target index 1 (no offset),
draws that stay inside both windows. -/
def cfgNoonIdx1 : BackfillCfg := ⟨43200000000, 1, 1⟩

def drawsClean : BackfillDraws := ⟨[5], [], [0], [0], [100], [], [0]⟩

/-! ## Helper lemmas -/

/-- Reduction of the post-reservation tail on a successful retry loop. -/
theorem randomRowAfterReserve_some (env : RandomRowEnv) (pd : PostData)
    (fp : String) (d : List DedupEntry) :
    randomRowAfterReserve env (some (pd, fp), d) =
      if dailyCapHit env.maxPerDay d env.channelId env.todayStart env.dayEnd then
        ({ published := 1, dedup := d }, 0)
      else if spacingBlocked env.minSec (maxPublishedAt d env.channelId) env.now then
        ({ published := 0, dedup := d }, 0)
      else if env.pubOk then ({ published := 1, dedup := d }, 1)
      else ({ published := 0, dedup := releaseDedup d env.channelId fp }, 0) := rfl

/-- A row whose slot is not pending is skipped without side effects. -/
theorem randomRowStep_skip (env : RandomRowEnv) (st : SlotState)
    (h : st.published ≠ 0) : randomRowStep env st = (st, 0) := by
  unfold randomRowStep
  cases hdg : env.dueGuard with
  | false => simp
  | true => simp [hdg, reserveSlot, h]

/-- The post-reservation tail publishes at most once, and a publication
commits the slot. -/
theorem randomRowAfterReserve_pub (env : RandomRowEnv)
    (res : Option (PostData × String) × List DedupEntry) :
    (randomRowAfterReserve env res).2 ≤ 1 ∧
      ((randomRowAfterReserve env res).2 = 1 →
        (randomRowAfterReserve env res).1.published = 1) := by
  rcases res with ⟨_ | ⟨pd, fp⟩, d⟩ <;>
    · unfold randomRowAfterReserve
      repeat' split
      all_goals simp

/-- A row iteration publishes at most once, and a publication commits the
slot. -/
theorem randomRowStep_pub (env : RandomRowEnv) (st : SlotState) :
    (randomRowStep env st).2 ≤ 1 ∧
      ((randomRowStep env st).2 = 1 → (randomRowStep env st).1.published = 1) := by
  unfold randomRowStep
  by_cases hdg : env.dueGuard = false
  · rw [if_pos hdg]; simp
  · rw [if_neg hdg]
    by_cases hres : (reserveSlot st.published).1 = false
    · rw [if_pos hres]; simp
    · rw [if_neg hres]
      by_cases hdon : env.donors = []
      · rw [if_pos hdon]; simp
      · rw [if_neg hdon]
        exact randomRowAfterReserve_pub env _

/-- A committed slot stays committed: no later iteration publishes. -/
theorem totalPublishes_of_done :
    ∀ (es : List RandomRowEnv) (st : SlotState), st.published = 1 →
      totalPublishes es st = 0
  | [], _, _ => rfl
  | e :: es, st, h => by
    have hs : randomRowStep e st = (st, 0) := randomRowStep_skip e st (by omega)
    simp only [totalPublishes, hs]
    simpa using totalPublishes_of_done es st h

/-- At most one successful publication of one slot over any sequence of
row iterations. -/
theorem totalPublishes_le_one :
    ∀ (es : List RandomRowEnv) (st : SlotState), totalPublishes es st ≤ 1
  | [], _ => by simp [totalPublishes]
  | e :: es, st => by
    have hone := (randomRowStep_pub e st).2
    have hle := (randomRowStep_pub e st).1
    simp only [totalPublishes]
    rcases Nat.lt_or_ge (randomRowStep e st).2 1 with h | h
    · have h0 : (randomRowStep e st).2 = 0 := by omega
      rw [h0]
      simpa using totalPublishes_le_one es (randomRowStep e st).1
    · have h1 : (randomRowStep e st).2 = 1 := by omega
      rw [h1, totalPublishes_of_done es _ (hone h1)]

/-- A successful retry loop has inserted its `(channel, fingerprint)` key
with `published_at = now`. -/
theorem retryLoop_mem_of_some (ch : Int) (now : Nat) :
    ∀ (atts : List (Option PostData)) (d0 d : List DedupEntry)
      (pd : PostData) (fp : String),
      retryLoop ch now atts d0 = (some (pd, fp), d) →
      (⟨ch, fp, now⟩ : DedupEntry) ∈ d
  | [], d0, d, pd, fp, h => by simp [retryLoop] at h
  | none :: rest, d0, d, pd, fp, h => by
    simp only [retryLoop] at h
    exact retryLoop_mem_of_some ch now rest d0 d pd fp h
  | some pd' :: rest, d0, d, pd, fp, h => by
    simp only [retryLoop] at h
    by_cases hk : dedupHasKey d0 ch (makePostFingerprint pd') = true
    · have hres : reserveDedup false d0 ch (makePostFingerprint pd') now = (false, d0) := by
        simp [reserveDedup, hk]
      rw [hres] at h
      simp only [Bool.false_eq_true, if_false] at h
      exact retryLoop_mem_of_some ch now rest d0 d pd fp h
    · have hk' : dedupHasKey d0 ch (makePostFingerprint pd') = false :=
        Bool.eq_false_iff.mpr hk
      have hres : reserveDedup false d0 ch (makePostFingerprint pd') now =
          (true, d0 ++ [⟨ch, makePostFingerprint pd', now⟩]) := by
        simp [reserveDedup, hk']
      rw [hres] at h
      simp only [if_true, Prod.mk.injEq, Option.some.injEq] at h
      obtain ⟨⟨hpd, hfp⟩, hd2⟩ := h
      subst hfp
      subst hd2
      simp

/-- The initial value bounds the running maximum from below. -/
theorem foldl_max_init_le : ∀ (xs : List Nat) (x : Nat), x ≤ xs.foldl max x
  | [], x => le_refl x
  | y :: ys, x => le_trans (le_max_left x y) (foldl_max_init_le ys (max x y))

/-- Every element bounds the running maximum from below. -/
theorem foldl_max_ge_of_mem :
    ∀ (xs : List Nat) (x a : Nat), a ∈ xs → a ≤ xs.foldl max x
  | [], _, _, h => by simp at h
  | y :: ys, x, a, h => by
    simp only [List.foldl_cons]
    rcases List.mem_cons.mp h with h | h
    · subst h; exact le_trans (le_max_right x a) (foldl_max_init_le ys _)
    · exact foldl_max_ge_of_mem ys (max x y) a h

/-- `MAX(published_at)` dominates every row of the channel. -/
theorem maxPublishedAt_ge_of_mem (l : List DedupEntry) (ch : Int)
    (e : DedupEntry) (he : e ∈ l) (hc : e.channelId = ch) :
    ∃ M, maxPublishedAt l ch = some M ∧ e.publishedAt ≤ M := by
  have hmem : e.publishedAt ∈ (l.filter fun x => x.channelId == ch).map (·.publishedAt) := by
    exact List.mem_map_of_mem _ (List.mem_filter.mpr ⟨he, by simp [hc]⟩)
  unfold maxPublishedAt
  cases hfl : (l.filter fun x => x.channelId == ch).map (·.publishedAt) with
  | nil => rw [hfl] at hmem; simp at hmem
  | cons x xs =>
    rw [hfl] at hmem
    refine ⟨xs.foldl max x, rfl, ?_⟩
    rcases List.mem_cons.mp hmem with h | h
    · rw [h]; exact foldl_max_init_le xs x
    · exact foldl_max_ge_of_mem xs x _ h

/-- After the rollback `DELETE`, the key is gone. -/
theorem dedupHasKey_releaseDedup (l : List DedupEntry) (ch : Int) (fp : String) :
    dedupHasKey (releaseDedup l ch fp) ch fp = false := by
  simp only [dedupHasKey, releaseDedup, List.any_eq_false]
  intro e he
  have hkeep := (List.mem_filter.mp he).2
  simp at hkeep
  intro h1
  simp at h1
  rcases hkeep with h | h
  · exact h h1.1
  · exact h h1.2

/-- Every element of a `takeWhile` satisfies the predicate and belongs to
the list. -/
theorem mem_takeWhile_and (p : Msg → Bool) :
    ∀ (l : List Msg) (m : Msg), m ∈ l.takeWhile p → p m = true ∧ m ∈ l := by
  intro l
  induction l with
  | nil => intro m h; simp at h
  | cons x xs ih =>
    intro m h
    rw [List.takeWhile_cons] at h
    by_cases hp : p x = true
    · rw [if_pos hp] at h
      rcases List.mem_cons.mp h with rfl | h
      · exact ⟨hp, List.mem_cons_self _ _⟩
      · obtain ⟨h1, h2⟩ := ih m h
        exact ⟨h1, List.mem_cons_of_mem _ h2⟩
    · rw [if_neg hp] at h
      simp at h

/-- Initial-value bound for the message-id maximum. -/
theorem foldlMaxMsg_init : ∀ (l : List Msg) (a : Nat),
    a ≤ l.foldl (fun a m => max a m.id) a
  | [], a => le_refl a
  | m :: ms, a =>
    le_trans (le_max_left a m.id) (foldlMaxMsg_init ms (max a m.id))

/-- Member bound for the message-id maximum. -/
theorem foldlMaxMsg_mem : ∀ (l : List Msg) (a : Nat) (m : Msg), m ∈ l →
    m.id ≤ l.foldl (fun a m => max a m.id) a
  | [], _, _, h => by simp at h
  | x :: xs, a, m, h => by
    simp only [List.foldl_cons]
    rcases List.mem_cons.mp h with rfl | h
    · exact le_trans (le_max_right a m.id) (foldlMaxMsg_init xs _)
    · exact foldlMaxMsg_mem xs _ m h

/-- Every publication event of one message carries that message's id. -/
theorem repostMsgTargets_snd_eq (now mid : Nat) (pd : PostData) :
    ∀ (ts : List Int) (d : List DedupEntry) (e : Int × Nat),
      e ∈ (repostMsgTargets now mid pd ts d).2 → e.2 = mid
  | [], d, e, h => by simp [repostMsgTargets] at h
  | t :: ts, d, e, h => by
    simp only [repostMsgTargets] at h
    by_cases hok : (reserveDedup false d t (makePostFingerprint pd) now).1 = true
    · rw [if_pos hok] at h
      rcases List.mem_cons.mp h with rfl | h
      · rfl
      · exact repostMsgTargets_snd_eq now mid pd ts _ e h
    · rw [if_neg hok] at h
      exact repostMsgTargets_snd_eq now mid pd ts _ e h

/-- A target outside the list receives no event for this message. -/
theorem repostMsgTargets_filter_nil (now mid : Nat) (pd : PostData) (t : Int) :
    ∀ (ts : List Int) (d : List DedupEntry), t ∉ ts →
      (repostMsgTargets now mid pd ts d).2.filter (fun e => e.1 == t) = []
  | [], d, _ => by simp [repostMsgTargets]
  | t' :: ts, d, hnm => by
    have hne : (t' == t) = false := by
      simp only [beq_eq_false_iff_ne, ne_eq]
      intro h
      exact hnm (h ▸ List.mem_cons_self _ _)
    have hnm' : t ∉ ts := fun h => hnm (List.mem_cons_of_mem _ h)
    simp only [repostMsgTargets]
    by_cases hok : (reserveDedup false d t' (makePostFingerprint pd) now).1 = true
    · rw [if_pos hok]
      simp only [List.filter_cons, hne, Bool.false_eq_true, if_false]
      exact repostMsgTargets_filter_nil now mid pd t ts _ hnm'
    · rw [if_neg hok]
      exact repostMsgTargets_filter_nil now mid pd t ts _ hnm'

/-- With distinct targets, a target receives at most one event per
message. -/
theorem repostMsgTargets_filter_len (now mid : Nat) (pd : PostData) (t : Int) :
    ∀ (ts : List Int) (d : List DedupEntry), ts.Nodup →
      ((repostMsgTargets now mid pd ts d).2.filter (fun e => e.1 == t)).length ≤ 1
  | [], d, _ => by simp [repostMsgTargets]
  | t' :: ts, d, hnd => by
    obtain ⟨hnotmem, hnd'⟩ := List.nodup_cons.mp hnd
    simp only [repostMsgTargets]
    by_cases hok : (reserveDedup false d t' (makePostFingerprint pd) now).1 = true
    · rw [if_pos hok]
      by_cases het : (t' == t) = true
      · have htt : t ∉ ts := by
          rw [← beq_iff_eq.mp het]; exact hnotmem
        simp only [List.filter_cons, het, if_true]
        rw [repostMsgTargets_filter_nil now mid pd t ts _ htt]
        simp
      · simp only [List.filter_cons, het, Bool.false_eq_true, if_false]
        exact repostMsgTargets_filter_len now mid pd t ts _ hnd'
    · rw [if_neg hok]
      exact repostMsgTargets_filter_len now mid pd t ts _ hnd'

/-- Every publication event of a poll names the id of a processed
message. -/
theorem repostPublish_mem_id (now : Nat) (targets : List Int) :
    ∀ (ms : List Msg) (d : List DedupEntry) (e : Int × Nat),
      e ∈ (repostPublish now targets ms d).2 → ∃ m ∈ ms, e.2 = m.id
  | [], _, e, h => by simp [repostPublish] at h
  | m :: ms, d, e, h => by
    simp only [repostPublish] at h
    rcases List.mem_append.mp h with h | h
    · exact ⟨m, List.mem_cons_self _ _,
        repostMsgTargets_snd_eq now m.id (repostPayload m.content) targets d e h⟩
    · obtain ⟨m', hm', he⟩ := repostPublish_mem_id now targets ms _ e h
      exact ⟨m', List.mem_cons_of_mem _ hm', he⟩

/-- Lists of length at most one are vacuously pairwise. -/
theorem pairwise_of_len_le_one {α : Type} {R : α → α → Prop} :
    ∀ {l : List α}, l.length ≤ 1 → l.Pairwise R
  | [], _ => List.Pairwise.nil
  | [a], _ => List.Pairwise.cons (by simp) List.Pairwise.nil
  | _ :: _ :: _, h => by simp at h

/-- With ascending message ids and distinct targets, each target's
publication ids are strictly increasing. -/
theorem repostPublish_filter_pairwise (now : Nat) (targets : List Int)
    (t : Int) (hnd : targets.Nodup) :
    ∀ (ms : List Msg) (d : List DedupEntry),
      ms.Pairwise (fun a b => a.id < b.id) →
      (((repostPublish now targets ms d).2.filter
        (fun e => e.1 == t)).map (·.2)).Pairwise (· < ·)
  | [], d, _ => by simp [repostPublish]
  | m :: ms, d, hp => by
    obtain ⟨hhead, htail⟩ := List.pairwise_cons.mp hp
    simp only [repostPublish]
    rw [List.filter_append, List.map_append, List.pairwise_append]
    refine ⟨?_, repostPublish_filter_pairwise now targets t hnd ms _ htail, ?_⟩
    · apply pairwise_of_len_le_one
      rw [List.length_map]
      exact repostMsgTargets_filter_len now m.id (repostPayload m.content) t
        targets d hnd
    · intro a ha b hb
      obtain ⟨e, he, hea⟩ := List.mem_map.mp ha
      have ha' : e.2 = m.id := repostMsgTargets_snd_eq now m.id
        (repostPayload m.content) targets d e (List.mem_filter.mp he).1
      obtain ⟨e', he', heb⟩ := List.mem_map.mp hb
      obtain ⟨m', hm', hid⟩ := repostPublish_mem_id now targets ms _ e'
        (List.mem_filter.mp he').1
      rw [← hea, ha', ← heb, hid]
      exact hhead m' hm'

/-- Chronologically reversed new messages of a descending history have
ascending ids. -/
theorem newMessages_reverse_pairwise (lastId : Nat) (history : List Msg)
    (h : history.Pairwise (fun a b => b.id < a.id)) :
    ((newMessages lastId history).reverse).Pairwise (fun a b => a.id < b.id) := by
  rw [List.pairwise_reverse]
  unfold newMessages
  exact (h.sublist ((List.takeWhile_prefix _).sublist)).filter _

/-! ### Backfill helpers -/

/-- Elements of a `zip3With` image. -/
theorem zip3With_mem (f : Nat → Nat → Nat → Nat) :
    ∀ (as bs cs : List Nat) (x : Nat), x ∈ zip3With f as bs cs →
      ∃ a b c, x = f a b c
  | a :: as, b :: bs, c :: cs, x, h => by
    simp only [zip3With] at h
    rcases List.mem_cons.mp h with rfl | h
    · exact ⟨a, b, c, rfl⟩
    · exact zip3With_mem f as bs cs x h
  | [], _, _, x, h => by simp [zip3With] at h
  | _ :: _, [], _, x, h => by simp [zip3With] at h
  | _ :: _, _ :: _, [], x, h => by simp [zip3With] at h

/-- Every post-processed today-time lands inside today's window. -/
theorem adjustTodayTime_bounds (c : BackfillCfg) (j x : Nat) :
    cfgTodayStart c ≤ adjustTodayTime c j x ∧
      adjustTodayTime c j x ≤ cfgDayEnd c := by
  have hds : cfgTodayStart c ≤ c.now := Nat.div_mul_le_self c.now usecPerDay
  have hde : cfgDayEnd c = cfgTodayStart c + usecPerDay - 1 := rfl
  have hmf : cfgMinFuture c = c.now + 2 * usecPerMin := rfl
  have hD : 0 < usecPerDay := by decide
  unfold adjustTodayTime
  dsimp only
  set dt1 := if pyHourU x = 23 && pyMinuteU x = 59 then
    cfgTomStart c + j * usecPerMin + cfgOffset c else x with hdt1
  by_cases h2 : dt1 < cfgMinFuture c
  · rw [if_pos h2]
    by_cases h3 : cfgDayEnd c < cfgMinFuture c
    · rw [if_pos h3]; omega
    · rw [if_neg h3]; omega
  · rw [if_neg h2]
    by_cases h3 : cfgDayEnd c < dt1
    · rw [if_pos h3]; omega
    · rw [if_neg h3]; omega

/-- Elements of `todayGenerated` lie in today's window. -/
theorem todayGenerated_bounds (c : BackfillCfg) (d : BackfillDraws)
    (s : List Nat) : ∀ t ∈ todayGenerated c d s,
      cfgTodayStart c ≤ t ∧ t ≤ cfgDayEnd c := by
  intro t ht
  unfold todayGenerated at ht
  by_cases hneed : todayNeed c s = 0
  · rw [if_pos hneed] at ht; simp at ht
  · rw [if_neg hneed] at ht
    have ht' := (List.mem_filter.mp ht).1
    obtain ⟨a, b, j, habc⟩ := zip3With_mem _ _ _ _ t ht'
    rw [habc]
    exact adjustTodayTime_bounds c j _

/-- Elements of `todayGenerated` are not among the already-pending
today-times. -/
theorem todayGenerated_fresh (c : BackfillCfg) (d : BackfillDraws)
    (s : List Nat) : ∀ t ∈ todayGenerated c d s,
      t ∉ windowTimes (cfgTodayStart c) (cfgDayEnd c) s := by
  intro t ht
  unfold todayGenerated at ht
  by_cases hneed : todayNeed c s = 0
  · rw [if_pos hneed] at ht; simp at ht
  · rw [if_neg hneed] at ht
    have := (List.mem_filter.mp ht).2
    simpa using this

/-- Elements of `tomGenerated` are not among the already-pending
tomorrow-times. -/
theorem tomGenerated_fresh (c : BackfillCfg) (d : BackfillDraws)
    (s1 : List Nat) : ∀ t ∈ tomGenerated c d s1,
      t ∉ windowTimes (cfgTomStart c) (cfgTomEnd c) s1 := by
  intro t ht
  unfold tomGenerated at ht
  by_cases hneed : tomNeed c s1 = 0
  · rw [if_pos hneed] at ht; simp at ht
  · rw [if_neg hneed] at ht
    have := (List.mem_filter.mp ht).2
    simpa using this

/-- The window query distributes over insertion. -/
theorem windowTimes_append (lo hi : Nat) (A B : List Nat) :
    windowTimes lo hi (A ++ B) = windowTimes lo hi A ++ windowTimes lo hi B :=
  List.filter_append _ _

/-- A list fully inside the window is returned whole. -/
theorem windowTimes_eq_self (lo hi : Nat) (l : List Nat)
    (h : ∀ t ∈ l, lo ≤ t ∧ t ≤ hi) : windowTimes lo hi l = l := by
  unfold windowTimes
  rw [List.filter_eq_self]
  intro a ha
  simp [h a ha |>.1, h a ha |>.2]

/-- A list fully outside the window filters to nothing. -/
theorem windowTimes_eq_nil (lo hi : Nat) (l : List Nat)
    (h : ∀ t ∈ l, ¬(lo ≤ t ∧ t ≤ hi)) : windowTimes lo hi l = [] := by
  unfold windowTimes
  rw [List.filter_eq_nil_iff]
  intro a ha
  simp only [Bool.and_eq_true, decide_eq_true_eq]
  intro hcon
  exact h a ha hcon

/-- Counting distinct times across an insertion of fresh, distinct
values. -/
theorem distinctCount_append (A B : List Nat) (hB : B.Nodup)
    (hd : ∀ b ∈ B, b ∉ A) :
    distinctCount (A ++ B) = distinctCount A + B.length := by
  unfold distinctCount
  rw [List.toFinset_append, Finset.card_union_of_disjoint, List.toFinset_card_of_nodup hB]
  rw [Finset.disjoint_right]
  intro x hxB hxA
  exact hd x (List.mem_toFinset.mp hxB) (List.mem_toFinset.mp hxA)

/-! ## Claims -/

/-- C1: slot reservation is a compare-and-set `published: 0 → -1` that
succeeds iff exactly one row changed; of two reservation attempts on the
same pending slot exactly one succeeds while the other observes failure
and performs no side effects; hence at most one successful publish occurs
per slot across any sequence of row iterations. -/
theorem reserve_slot_cas_at_most_once :
    (reserveSlot 0 = (true, -1) ∧ ∀ p : Int, p ≠ 0 → reserveSlot p = (false, p)) ∧
    (∀ p : Int, (reserveSlot p).1 = true ↔ reserveSlotChanges p = 1) ∧
    (∀ (env : RandomRowEnv) (st : SlotState), st.published = -1 →
      randomRowStep env st = (st, 0)) ∧
    (∀ (es : List RandomRowEnv) (st : SlotState), totalPublishes es st ≤ 1) := by
  refine ⟨⟨rfl, fun p hp => ?_⟩, fun p => ?_, fun env st h => ?_,
    totalPublishes_le_one⟩
  · simp [reserveSlot, hp]
  · unfold reserveSlot reserveSlotChanges
    by_cases h : p = 0 <;> simp [h]
  · exact randomRowStep_skip env st (by rw [h]; decide)

/-- Witness for C1 at concrete inputs: a non-pending slot loses the CAS,
and a worker that encounters a reserved slot leaves it unchanged. -/
theorem reserve_slot_cas_at_most_once_witness :
    reserveSlot 5 = (false, 5) ∧
    randomRowStep envPubOk ⟨-1, []⟩ = (⟨-1, []⟩, 0) :=
  ⟨reserve_slot_cas_at_most_once.1.2 5 (by decide),
   reserve_slot_cas_at_most_once.2.2.1 envPubOk ⟨-1, []⟩ rfl⟩

/-- C2 counterexample: with the spacing cap configured (60 s), a due
pending slot is reserved, reserves its dedup key, is then deferred by the
spacing cap — and the slot returns to `published = 0` while the
`(channel_id, fingerprint)` record reserved in that same attempt is still
in the dedup table, contradicting the claim that it is deleted. -/
theorem spacing_cap_dedup_cex :
    (randomRowStep envSpacing ⟨0, []⟩).1.published = 0 ∧
    dedupHasKey (randomRowStep envSpacing ⟨0, []⟩).1.dedup 100
      (makePostFingerprint pdPlain) = true := by decide

/-- C2 amended: on the spacing-cap deferral the slot is released but the
dedup record reserved in that attempt is retained, not deleted (the
rollback of the dedup reservation happens only on the publish-exception
path). Moreover, whenever the spacing cap is configured and the retry
loop reserved a key, the deferral fires — the attempt's own reservation
is the channel's newest `published_at`. -/
theorem spacing_release_keeps_dedup
    (env : RandomRowEnv) (ded : List DedupEntry) (pd : PostData) (fp : String)
    (d : List DedupEntry)
    (hg : env.dueGuard = true)
    (hd : env.donors ≠ [])
    (hr : retryLoop env.channelId env.now (env.attempts.take 5) ded
      = (some (pd, fp), d))
    (hcap : dailyCapHit env.maxPerDay d env.channelId env.todayStart env.dayEnd
      = false)
    (hmin : 0 < env.minSec) :
    (randomRowStep env ⟨0, ded⟩).1.published = 0 ∧
      (⟨env.channelId, fp, env.now⟩ : DedupEntry) ∈
        (randomRowStep env ⟨0, ded⟩).1.dedup := by
  have hmem := retryLoop_mem_of_some env.channelId env.now
    (env.attempts.take 5) ded d pd fp hr
  obtain ⟨M, hM, hMge⟩ := maxPublishedAt_ge_of_mem d env.channelId
    ⟨env.channelId, fp, env.now⟩ hmem rfl
  have hsub : env.now - M = 0 := Nat.sub_eq_zero_of_le hMge
  have hsp : spacingBlocked env.minSec (maxPublishedAt d env.channelId) env.now
      = true := by
    rw [hM]
    simp [spacingBlocked, hsub, hmin]
  have hstep : randomRowStep env ⟨0, ded⟩ = ({ published := 0, dedup := d }, 0) := by
    unfold randomRowStep
    rw [hg, if_neg (by decide)]
    rw [if_neg (by simp [reserveSlot])]
    rw [if_neg hd]
    rw [show (⟨0, ded⟩ : SlotState).dedup = ded from rfl, hr,
      randomRowAfterReserve_some]
    rw [hcap, if_neg (by decide), hsp, if_pos rfl]
  rw [hstep]
  exact ⟨rfl, hmem⟩

/-- Witness for C2 amended at concrete inputs. -/
theorem spacing_release_keeps_dedup_witness :
    (randomRowStep envSpacing ⟨0, []⟩).1.published = 0 ∧
      (⟨100, makePostFingerprint pdPlain, 1000⟩ : DedupEntry) ∈
        (randomRowStep envSpacing ⟨0, []⟩).1.dedup :=
  spacing_release_keeps_dedup envSpacing [] pdPlain
    (makePostFingerprint pdPlain) [⟨100, makePostFingerprint pdPlain, 1000⟩]
    rfl (by decide) (by decide) (by decide) (by decide)

/-- C3: when the publish raises after the dedup reservation succeeded
(and no cap interfered), the attempt deletes the `(channel, fingerprint)`
record and returns the slot from `published = -1` to `published = 0`:
the dedup table holds no residue for that key. -/
theorem publish_failure_rolls_back
    (env : RandomRowEnv) (ded : List DedupEntry) (pd : PostData) (fp : String)
    (d : List DedupEntry)
    (hg : env.dueGuard = true)
    (hd : env.donors ≠ [])
    (hr : retryLoop env.channelId env.now (env.attempts.take 5) ded
      = (some (pd, fp), d))
    (hcap : dailyCapHit env.maxPerDay d env.channelId env.todayStart env.dayEnd
      = false)
    (hmin : env.minSec = 0)
    (hpub : env.pubOk = false) :
    randomRowStep env ⟨0, ded⟩ =
      (⟨0, releaseDedup d env.channelId fp⟩, 0) ∧
    dedupHasKey (randomRowStep env ⟨0, ded⟩).1.dedup env.channelId fp = false := by
  have hsp : spacingBlocked env.minSec (maxPublishedAt d env.channelId) env.now
      = false := by
    simp [spacingBlocked, hmin]
  have hstep : randomRowStep env ⟨0, ded⟩ =
      (⟨0, releaseDedup d env.channelId fp⟩, 0) := by
    unfold randomRowStep
    rw [hg, if_neg (by decide)]
    rw [if_neg (by simp [reserveSlot])]
    rw [if_neg hd]
    rw [show (⟨0, ded⟩ : SlotState).dedup = ded from rfl, hr,
      randomRowAfterReserve_some]
    rw [hcap, if_neg (by decide), hsp, if_neg (by decide), hpub,
      if_neg (by decide)]
  refine ⟨hstep, ?_⟩
  rw [hstep]
  exact dedupHasKey_releaseDedup d env.channelId fp

/-- Witness for C3 at concrete inputs: a failing publisher leaves
`published = 0` and an empty dedup table. -/
theorem publish_failure_rolls_back_witness :
    randomRowStep envPubFail ⟨0, []⟩ =
      (⟨0, releaseDedup [⟨200, makePostFingerprint pdPlain, 1000⟩] 200
        (makePostFingerprint pdPlain)⟩, 0) ∧
    dedupHasKey (randomRowStep envPubFail ⟨0, []⟩).1.dedup 200
      (makePostFingerprint pdPlain) = false :=
  publish_failure_rolls_back envPubFail [] pdPlain
    (makePostFingerprint pdPlain) [⟨200, makePostFingerprint pdPlain, 1000⟩]
    rfl (by decide) (by decide) (by decide) rfl rfl

/-- C8 counterexample: the source strips caption/text before hashing, so
for a caption with leading whitespace the fingerprint differs from
SHA-256 of the claim's literal string
`"{kind}|{caption[:300]}|{text[:300]}|{media_hash}"`. -/
theorem fingerprint_spec_mismatch_cex :
    makePostFingerprint pdPadded ≠ fingerprintSpec pdPadded := by decide

/-- C8 amended: the fingerprint is SHA-256 of
`"{kind}|{caption[:300]}|{text[:300]}|{media_hash}"` truncated to 32 hex
characters — with caption and text first stripped of surrounding
whitespace; on whitespace-normalized candidates this is exactly the
spec's formula. Determinism is immediate: the fingerprint is a function
of the candidate. -/
theorem fingerprint_formula_stripped (pd : PostData)
    (hc : pyStrip (pd.caption.getD "") = pd.caption.getD "")
    (ht : pyStrip (pd.text.getD "") = pd.text.getD "") :
    makePostFingerprint pd = fingerprintSpec pd := by
  unfold makePostFingerprint fingerprintSpec
  rw [hc, ht]

/-- Witness for C8 amended at a concrete stripped candidate. -/
theorem fingerprint_formula_stripped_witness :
    makePostFingerprint ⟨"text", some "x", some "a", none⟩ =
      fingerprintSpec ⟨"text", some "x", some "a", none⟩ :=
  fingerprint_formula_stripped ⟨"text", some "x", some "a", none⟩
    (by decide) (by decide)

/-- C9: link stripping removes `t.me/…` and `telegram.me/…` URLs anywhere
in the text and removes standalone `@handle` tokens with at least 3
handle characters, preserving the remaining whitespace and newlines; in
particular the spec's example
`clean("hi @channel visit t.me/x\nend") = "hi  visit \nend"` holds, short
handles, embedded handles and email addresses are kept, and texts without
matches are unchanged. -/
theorem clean_telegram_links_spec :
    cleanTelegramLinks "hi @channel visit t.me/x\nend" = "hi  visit \nend" ∧
    cleanTelegramLinks "go https://t.me/abc/def now" = "go  now" ∧
    cleanTelegramLinks "see telegram.me/chan end" = "see  end" ∧
    cleanTelegramLinks "join http://telegram.me/x+y!" = "join !" ∧
    cleanTelegramLinks "hi @ab go" = "hi @ab go" ∧
    cleanTelegramLinks "mail me@abcd.com" = "mail me@abcd.com" ∧
    cleanTelegramLinks "@abc\n@de fg" = "\n@de fg" ∧
    cleanTelegramLinks "a\n\nb  c" = "a\n\nb  c" := by decide

set_option maxRecDepth 8000 in
/-- C4 counterexample: in scenario S5 (last seen 50; donor messages 51
`"hello @d"`, 52 photo, 53 `"hello @d"`), message 53 is NOT delivered to
channel 300 — its payload fingerprint equals message 51's and the
per-target dedup reservation skips it — contradicting the claim that
every new content-bearing message is published to every target. -/
theorem repost_dedup_skip_cex :
    (repostPoll 50 s5History [300] [] 1000).2.1 = [(300, 51), (300, 52)] ∧
    (300, 53) ∉ (repostPoll 50 s5History [300] [] 1000).2.1 := by decide

set_option maxRecDepth 8000 in
/-- C4 amended: every new content-bearing donor message whose payload
fingerprint is not already reserved for the target is published, in
ascending message-id order; messages whose fingerprint duplicates an
earlier reservation are skipped for that target (in S5 only 51 and 52
are delivered and `last_seen` still becomes 53). Formally: the S5
outcome; for strictly-descending histories and distinct targets each
target's publication ids strictly increase; and every publication names
a content-bearing history message newer than `last_seen`. -/
theorem repost_order_and_dedup :
    ((repostPoll 50 s5History [300] [] 1000).1 = 53 ∧
     (repostPoll 50 s5History [300] [] 1000).2.1 = [(300, 51), (300, 52)]) ∧
    (∀ (lastId : Nat) (history : List Msg) (targets : List Int)
       (dedup : List DedupEntry) (now : Nat) (t : Int),
       0 < lastId →
       history.Pairwise (fun a b => b.id < a.id) →
       targets.Nodup →
       (((repostPoll lastId history targets dedup now).2.1.filter
          (fun e => e.1 == t)).map (·.2)).Pairwise (· < ·)) ∧
    (∀ (lastId : Nat) (history : List Msg) (targets : List Int)
       (dedup : List DedupEntry) (now : Nat) (e : Int × Nat),
       0 < lastId →
       e ∈ (repostPoll lastId history targets dedup now).2.1 →
       lastId < e.2 ∧ ∃ m ∈ history, m.id = e.2 ∧ hasContent m.content = true) := by
  refine ⟨by decide, ?_, ?_⟩
  · intro lastId history targets dedup now t hpos hdesc hnd
    have hne : lastId ≠ 0 := by omega
    have hrw : (repostPoll lastId history targets dedup now).2.1 =
        (repostPublish now targets (newMessages lastId history).reverse dedup).2 := by
      unfold repostPoll
      rw [if_neg hne]
    rw [hrw]
    exact repostPublish_filter_pairwise now targets t hnd _ dedup
      (newMessages_reverse_pairwise lastId history hdesc)
  · intro lastId history targets dedup now e hpos he
    have hne : lastId ≠ 0 := by omega
    have hrw : (repostPoll lastId history targets dedup now).2.1 =
        (repostPublish now targets (newMessages lastId history).reverse dedup).2 := by
      unfold repostPoll
      rw [if_neg hne]
    rw [hrw] at he
    obtain ⟨m, hm, hid⟩ := repostPublish_mem_id now targets _ dedup e he
    have hm' : m ∈ newMessages lastId history := List.mem_reverse.mp hm
    unfold newMessages at hm'
    obtain ⟨htw, hcont⟩ := List.mem_filter.mp hm'
    obtain ⟨hpred, hmem⟩ := mem_takeWhile_and _ history m htw
    refine ⟨?_, m, hmem, hid.symm, hcont⟩
    rw [hid]
    exact of_decide_eq_true hpred

/-- Witness for C4 amended: ascending per-target ids on a concrete
descending history. -/
theorem repost_order_and_dedup_witness :
    (((repostPoll 1 historySmall [7] [] 5).2.1.filter
      (fun e => e.1 == (7 : Int))).map (·.2)).Pairwise (· < ·) :=
  repost_order_and_dedup.2.1 1 historySmall [7] [] 5 7 (by decide)
    (by decide) (by decide)

/-- C5: on the very first poll (`last_seen_message_id = 0`) the stream is
baselined — `last_seen` becomes the donor's current tip and nothing is
published, the dedup table untouched; on every later poll `last_seen`
never decreases, stays put when there are no new messages, and becomes
the maximum id of the new messages otherwise. -/
theorem repost_baseline_monotone :
    (∀ (history : List Msg) (targets : List Int) (dedup : List DedupEntry)
       (now : Nat),
      (repostPoll 0 history targets dedup now).2.1 = [] ∧
      (repostPoll 0 history targets dedup now).2.2 = dedup ∧
      (history = [] → (repostPoll 0 history targets dedup now).1 = 0) ∧
      (∀ m rest, history = m :: rest →
        (repostPoll 0 history targets dedup now).1 = m.id)) ∧
    (∀ (lastId : Nat) (history : List Msg) (targets : List Int)
       (dedup : List DedupEntry) (now : Nat),
      0 < lastId →
      lastId ≤ (repostPoll lastId history targets dedup now).1 ∧
      (newMessages lastId history = [] →
        (repostPoll lastId history targets dedup now).1 = lastId) ∧
      (newMessages lastId history ≠ [] →
        (repostPoll lastId history targets dedup now).1 =
          maxIds (newMessages lastId history) ∧
        lastId < (repostPoll lastId history targets dedup now).1)) := by
  constructor
  · intro history targets dedup now
    cases history with
    | nil => refine ⟨rfl, rfl, fun _ => rfl, fun m rest h => by simp at h⟩
    | cons m rest =>
      refine ⟨rfl, rfl, fun h => by simp at h, fun m' rest' h => ?_⟩
      injection h with h1 h2
      subst h1
      rfl
  · intro lastId history targets dedup now hpos
    have hne : lastId ≠ 0 := by omega
    have hdef : (repostPoll lastId history targets dedup now).1 =
        if newMessages lastId history = [] then lastId
        else maxIds (newMessages lastId history) := by
      unfold repostPoll
      rw [if_neg hne]
    have hall : ∀ m ∈ newMessages lastId history, lastId < m.id := by
      intro m hm
      unfold newMessages at hm
      obtain ⟨htw, _⟩ := List.mem_filter.mp hm
      exact of_decide_eq_true (mem_takeWhile_and _ history m htw).1
    by_cases hnm : newMessages lastId history = []
    · rw [hdef, if_pos hnm]
      exact ⟨le_refl _, fun _ => rfl, fun h => absurd hnm h⟩
    · rw [hdef, if_neg hnm]
      obtain ⟨m0, hm0⟩ := List.exists_mem_of_ne_nil _ hnm
      have hmax : m0.id ≤ maxIds (newMessages lastId history) :=
        foldlMaxMsg_mem _ 0 m0 hm0
      have hlt : lastId < maxIds (newMessages lastId history) :=
        lt_of_lt_of_le (hall m0 hm0) hmax
      exact ⟨le_of_lt hlt, fun h => absurd h hnm, fun _ => ⟨rfl, hlt⟩⟩

/-- Witness for C5 at concrete inputs: baseline to the tip 9 with no
publications; a later poll with tip 53 over last seen 50 advances to
53. -/
theorem repost_baseline_monotone_witness :
    (repostPoll 0 historySmall [300] [] 5).2.1 = [] ∧
    (repostPoll 0 historySmall [300] [] 5).1 = 9 ∧
    50 ≤ (repostPoll 50 s5History [300] [] 5).1 :=
  ⟨(repost_baseline_monotone.1 historySmall [300] [] 5).1,
   (repost_baseline_monotone.1 historySmall [300] [] 5).2.2.2
     ⟨9, .text "b"⟩ [⟨8, .voice⟩, ⟨7, .text "a"⟩] rfl,
   (repost_baseline_monotone.2 50 s5History [300] [] 5 (by decide)).1⟩

/-- C6 counterexample: with target index 2 (per-target offset one
minute) and the tomorrow minute draw 1439, the generated tomorrow slot
lands past tomorrow's window, so a second backfill run with no time
advance finds the window still short and inserts another slot — the two
runs do not yield the same pending set. -/
theorem backfill_not_idempotent_cex :
    backfillTarget cfgNoonIdx2 drawsIn (backfillTarget cfgNoonIdx2 drawsOut []) ≠
      backfillTarget cfgNoonIdx2 drawsOut [] := by decide

/-- C6 amended: the backfill pass is idempotent provided the first run
generated exactly the needed number of pairwise-distinct new times and
its tomorrow slots landed inside tomorrow's window (today's slots always
land in today's window by the clamps). When clamping collapses today
draws or the per-target offset pushes a tomorrow slot past the window,
the first run under-fills and the second run inserts more. -/
theorem backfill_idempotent_of_clean
    (c : BackfillCfg) (d1 d2 : BackfillDraws) (s : List Nat)
    (hT1 : (todayGenerated c d1 s).Nodup)
    (hT2 : (todayGenerated c d1 s).length = todayNeed c s)
    (hM1 : (tomGenerated c d1 (s ++ todayGenerated c d1 s)).Nodup)
    (hM2 : (tomGenerated c d1 (s ++ todayGenerated c d1 s)).length =
      tomNeed c (s ++ todayGenerated c d1 s))
    (hM3 : ∀ t ∈ tomGenerated c d1 (s ++ todayGenerated c d1 s),
      cfgTomStart c ≤ t ∧ t ≤ cfgTomEnd c) :
    backfillTarget c d2 (backfillTarget c d1 s) = backfillTarget c d1 s := by
  have hrun1 : backfillTarget c d1 s =
      (s ++ todayGenerated c d1 s) ++
        tomGenerated c d1 (s ++ todayGenerated c d1 s) := rfl
  set T := todayGenerated c d1 s with hT
  set T2 := tomGenerated c d1 (s ++ T) with hT2d
  have hTw := todayGenerated_bounds c d1 s
  have hwtT : windowTimes (cfgTodayStart c) (cfgDayEnd c) T = T :=
    windowTimes_eq_self _ _ _ hTw
  have hDlt : cfgDayEnd c < cfgTomStart c := by
    unfold cfgDayEnd cfgTomStart
    have : 0 < usecPerDay := by decide
    omega
  have hwtT2 : windowTimes (cfgTodayStart c) (cfgDayEnd c) T2 = [] := by
    apply windowTimes_eq_nil
    intro t ht hcon
    have := (hM3 t ht).1
    omega
  have hneedT : todayNeed c ((s ++ T) ++ T2) = 0 := by
    unfold todayNeed at hT2 ⊢
    rw [windowTimes_append, windowTimes_append, hwtT, hwtT2, List.append_nil,
      distinctCount_append _ _ hT1 (todayGenerated_fresh c d1 s)]
    omega
  have hgenT2 : todayGenerated c d2 ((s ++ T) ++ T2) = [] := by
    unfold todayGenerated
    rw [if_pos hneedT]
  have hwtTomT : windowTimes (cfgTomStart c) (cfgTomEnd c) T = [] := by
    apply windowTimes_eq_nil
    intro t ht hcon
    have := (hTw t ht).2
    omega
  have hwtTom2 : windowTimes (cfgTomStart c) (cfgTomEnd c) T2 = T2 :=
    windowTimes_eq_self _ _ _ hM3
  have hneedM : tomNeed c ((s ++ T) ++ T2) = 0 := by
    unfold tomNeed at hM2 ⊢
    rw [windowTimes_append, hwtTom2,
      distinctCount_append _ _ hM1 (tomGenerated_fresh c d1 (s ++ T))]
    omega
  have hgenM2 : tomGenerated c d2 (((s ++ T) ++ T2) ++ []) = [] := by
    rw [List.append_nil]
    unfold tomGenerated
    rw [if_pos hneedM]
  calc backfillTarget c d2 ((s ++ T) ++ T2)
      = (((s ++ T) ++ T2) ++ todayGenerated c d2 ((s ++ T) ++ T2)) ++
          tomGenerated c d2 (((s ++ T) ++ T2) ++
            todayGenerated c d2 ((s ++ T) ++ T2)) := rfl
    _ = (s ++ T) ++ T2 := by
          rw [hgenT2]
          rw [hgenM2]
          rw [List.append_nil, List.append_nil]

/-- Witness for C6 amended: clean draws at target index 1 make the pass
idempotent. -/
theorem backfill_idempotent_of_clean_witness :
    backfillTarget cfgNoonIdx1 drawsClean
      (backfillTarget cfgNoonIdx1 drawsClean []) =
      backfillTarget cfgNoonIdx1 drawsClean [] :=
  backfill_idempotent_of_clean cfgNoonIdx1 drawsClean drawsClean []
    (by decide) (by decide) (by decide) (by decide) (by decide)

/-- C7 counterexample: a due repost slot with malformed content `"bad"`
is marked `is_published = 1` although no publish or forward was performed
(and none could succeed — the publisher outcome is irrelevant),
contradicting the claim that a slot is committed only when a publish
succeeded. -/
theorem oneshot_absorbs_without_send_cex :
    oneShotStep ⟨100, "repost", "bad", none⟩ false = (1, 0) := by decide

/-- C7 amended: a due one-shot slot is marked `is_published = 1` exactly
when its attempt raises no error: a successful send commits it; a failed
send (or an `int()` error on a malformed repost part) leaves it pending
and untouched; and a slot whose payload cannot be built (malformed
repost data or an unrecognized content type) is committed with no send
at all. -/
theorem oneshot_commit_characterization :
    (∀ (row : OneShotRow) (ok : Bool), (oneShotStep row ok).2 = 1 →
      ok = true ∧ (oneShotStep row ok).1 = 1) ∧
    (∀ row : OneShotRow, oneShotPerformsSend row = true →
      oneShotStep row false = (0, 0)) ∧
    (∀ row : OneShotRow, oneShotPerformsSend row = false →
      ∀ ok : Bool, oneShotStep row ok = (1, 0)) := by
  refine ⟨fun row ok h => ?_, fun row hp => ?_, fun row hp ok => ?_⟩
  · unfold oneShotStep at h
    repeat' split at h
    all_goals try simp_all [oneShotStep]
    all_goals (
      cases hp1 : pyIntParse ((pySplit '_' row.content).getD 1 "") <;>
      cases hp2 : pyIntParse ((pySplit '_' row.content).getD 2 "") <;>
      simp_all [oneShotStep])
  · unfold oneShotStep
    repeat' split
    all_goals try simp_all [oneShotPerformsSend]
    all_goals (
      cases hp1 : pyIntParse ((pySplit '_' row.content).getD 1 "") <;>
      cases hp2 : pyIntParse ((pySplit '_' row.content).getD 2 "") <;>
      simp_all [oneShotPerformsSend])
  · unfold oneShotStep
    repeat' split
    all_goals simp_all [oneShotPerformsSend]

/-- Witness for C7 amended: a failed send leaves a text slot pending; an
unrecognized kind is committed with no send. -/
theorem oneshot_commit_characterization_witness :
    oneShotStep ⟨100, "text", "hi", none⟩ false = (0, 0) ∧
    oneShotStep ⟨100, "document", "x", none⟩ true = (1, 0) :=
  ⟨oneshot_commit_characterization.2.1 ⟨100, "text", "hi", none⟩ (by decide),
   oneshot_commit_characterization.2.2 ⟨100, "document", "x", none⟩
     (by decide) true⟩

/-- C10: dedup reservation fails open — if a storage operation inside
`_reserve_dedup` raises, the reservation returns `True` with the table
untouched, so a dedup-layer failure lets the publication proceed. -/
theorem reserve_dedup_fails_open :
    ∀ (l : List DedupEntry) (ch : Int) (fp : String) (now : Nat),
      reserveDedup true l ch fp now = (true, l) :=
  fun _ _ _ _ => rfl

end TgBot
